import Mathlib

/-!
The cloudformation-schema-generator: type classifier, `Required()` and `counter`

A shallow embedding of the pure parts of `spec.go` and `generator.go`.

* Go `string` values are modelled by Lean `String`. The strings the generator
  handles are decoded JSON text, so they are valid UTF-8, where the byte-wise
  order used by `sort.Strings` coincides with the code-point order of Lean
  strings.
* A Go `map[string]Property` is modelled by the list of its entries in the order
  in which one `range` loop visits them; a well-formed map has pairwise distinct
  keys.
* Go `int` is a two's-complement machine integer; `counter` is parameterised by
  its width in bits.
-/

namespace SchemaGenerator

/-! ## Data model (`spec.go`) -/

/-- Property represents an AWS CloudFormation resource property. -/
structure Property where
  ItemType : String
  PrimitiveItemType : String
  PrimitiveType : String
  Required : Bool
  /-- The Go field `Type` (a reserved word here). -/
  Type_ : String
  PrimitiveTypes : List String
  PrimitiveItemTypes : List String
  ItemTypes : List String
  Types : List String
  InclusivePrimitiveItemTypes : List String
  InclusiveItemTypes : List String
  InclusiveItemPattern : Bool
  deriving DecidableEq, Repr

/-- Resource represents an AWS CloudFormation resource: the entries of its
`Properties` map, in the order a `range` loop visits them. -/
structure Resource where
  Properties : List (String × Property)
  deriving DecidableEq, Repr

/-- The package-level table `typeToJSON`, as an association list. -/
def typeToJSON : List (String × String) :=
  [("String", "string"), ("Long", "number"), ("Integer", "number"), ("Double", "number"),
   ("Boolean", "boolean"), ("Timestamp", "string"), ("Json", "object"), ("Map", "object")]

/-! ## Type classifier (`spec.go`) -/

/-- IsPolymorphic checks whether a property can be multiple different types. -/
def Property.IsPolymorphic (p : Property) : Bool :=
  decide (p.PrimitiveTypes.length > 0) || decide (p.PrimitiveItemTypes.length > 0) ||
    decide (p.ItemTypes.length > 0) || decide (p.Types.length > 0) ||
    decide (p.InclusivePrimitiveItemTypes.length > 0) || decide (p.InclusiveItemTypes.length > 0)

/-- IsPrimitive checks whether a property is a primitive type. -/
def Property.IsPrimitive (p : Property) : Bool :=
  p.PrimitiveType != ""

/-- IsMap checks whether a property should be a map. -/
def Property.IsMap (p : Property) : Bool :=
  p.Type_ == "Map"

/-- IsList checks whether a property should be a list. -/
def Property.IsList (p : Property) : Bool :=
  p.Type_ == "List"

/-- IsCustomType checks whether a property is a custom type. -/
def Property.IsCustomType (p : Property) : Bool :=
  p.PrimitiveType == "" && p.ItemType == "" && p.PrimitiveItemType == "" &&
    p.Type_ != "" && p.Type_ != "List" && p.Type_ != "Map"

/-- The free function `convertTypeToJSON`: table lookup, `""` when the name is
not a key of `typeToJSON`. -/
def convertTypeToJSON (name : String) : String :=
  match typeToJSON.lookup name with
  | some t => t
  | none => ""

/-- The method `Property.convertTypeToJSON`. -/
def Property.convertTypeToJSON (p : Property) : String :=
  if p.PrimitiveType != "" then
    SchemaGenerator.convertTypeToJSON p.PrimitiveType
  else if p.PrimitiveItemType != "" then
    SchemaGenerator.convertTypeToJSON p.PrimitiveItemType
  else
    SchemaGenerator.convertTypeToJSON p.ItemType

/-- GetJSONPrimitiveType returns the correct primitive property type for a JSON Schema. -/
def Property.GetJSONPrimitiveType (p : Property) : String :=
  p.convertTypeToJSON

/-- HasJSONPrimitiveType checks if GetJSONPrimitiveType is not `""`. -/
def Property.HasJSONPrimitiveType (p : Property) : Bool :=
  p.convertTypeToJSON != ""

/-! ## `Required()` (`spec.go`) -/

/-- Lexicographic comparison of two character sequences by code point. -/
def lexLess : List Char → List Char → Bool
  | _, [] => false
  | [], _ :: _ => true
  | a :: as, b :: bs =>
    if a.toNat < b.toNat then true
    else if b.toNat < a.toNat then false
    else lexLess as bs

/-- The Go comparison `a < b` on strings, as used by `sort.StringSlice.Less`. -/
def stringLess (a b : String) : Bool :=
  lexLess a.toList b.toList

/-- Insertion of one string into an ascending list. -/
def insertString (a : String) : List String → List String
  | [] => [a]
  | b :: l => if stringLess b a then b :: insertString a l else a :: b :: l

/-- Library function `sort.Strings`: the ascending rearrangement of its input.
Strings form a linear order, so every correct sort returns this same list. -/
def sortStrings : List String → List String
  | [] => []
  | a :: l => insertString a (sortStrings l)

/-- Library function `strings.Join`. -/
def stringsJoin : List String → String → String
  | [], _ => ""
  | [a], _ => a
  | a :: b :: l, sep => a ++ sep ++ stringsJoin (b :: l) sep

/-- The expression that wraps a property name in double quotes. -/
def quoted (name : String) : String :=
  "\"" ++ name ++ "\""

/-- The loop of `Required`: the quoted names of the required properties, in
visiting order. -/
def requiredLoop : List (String × Property) → List String
  | [] => []
  | (name, property) :: rest =>
    if property.Required then quoted name :: requiredLoop rest
    else requiredLoop rest

/-- The slice `required` of `Required` after the call of `sort.Strings`. -/
def Resource.requiredSorted (r : Resource) : List String :=
  sortStrings (requiredLoop r.Properties)

/-- Required returns a comma separated list of the required properties for this resource. -/
def Resource.Required (r : Resource) : String :=
  stringsJoin r.requiredSorted ", "

/-! ## `counter` (`generator.go`) -/

/-- Two's-complement wrap-around of an integer to `bits` bits. -/
def wrapInt (bits : Nat) (x : Int) : Int :=
  (x + 2 ^ (bits - 1)) % 2 ^ bits - 2 ^ (bits - 1)

/-- The closure returned by `counter`: the captured `length` and the captured
mutable variable `i`. -/
structure Counter where
  length : Int
  i : Int
  deriving DecidableEq, Repr

/-- The function `counter`: `i := 0`, then the closure is returned. -/
def counter (length : Int) : Counter :=
  { length := length, i := 0 }

/-- One call of the closure: `i++` (on a `bits`-bit `int`), then `return i < length`. -/
def Counter.call (bits : Nat) (c : Counter) : Bool × Counter :=
  let i := wrapInt bits (c.i + 1)
  (decide (i < c.length), { c with i := i })

/-- The closure after `k` calls. -/
def Counter.after (bits : Nat) (c : Counter) : Nat → Counter
  | 0 => c
  | k + 1 => ((c.after bits k).call bits).2

/-- The answer of the `k`-th call of the closure (`k = 1, 2, ...`). -/
def Counter.nthCall (bits : Nat) (c : Counter) (k : Nat) : Bool :=
  ((c.after bits (k - 1)).call bits).1

/-! ## Sample inputs -/

/-- A property with every field empty. -/
def emptyProperty : Property :=
  { ItemType := "", PrimitiveItemType := "", PrimitiveType := "", Required := false,
    Type_ := "", PrimitiveTypes := [], PrimitiveItemTypes := [], ItemTypes := [], Types := [],
    InclusivePrimitiveItemTypes := [], InclusiveItemTypes := [], InclusiveItemPattern := false }

/-- A property that only has the given primitive type. -/
def primitiveProperty (t : String) : Property :=
  { emptyProperty with PrimitiveType := t }

/-- A required property with otherwise empty fields. -/
def requiredProperty : Property :=
  { emptyProperty with Required := true }

/-- A property with tag `Foo`, primitive item type `String` and nothing else. -/
def taggedItemProperty : Property :=
  { emptyProperty with Type_ := "Foo", PrimitiveItemType := "String" }

/-- A property with both a primitive type and the structural tag `List`. -/
def primitiveListProperty : Property :=
  { emptyProperty with PrimitiveType := "String", Type_ := "List" }

/-- A list of strings: tag `List`, primitive item type `String`. -/
def stringListProperty : Property :=
  { emptyProperty with Type_ := "List", PrimitiveItemType := "String" }

/-- A resource whose two required property names are `a` and `a!`. -/
def prefixResource : Resource :=
  { Properties := [("a", requiredProperty), ("b", emptyProperty), ("a!", requiredProperty)] }

/-- The resource of the scenario in the specification: `Name` required, `Count` optional. -/
def scenarioResource : Resource :=
  { Properties := [("Name", { primitiveProperty "String" with Required := true }),
      ("Count", primitiveProperty "Integer")] }

/-- A resource with the three required properties `b`, `a!` and `a`. -/
def threeRequiredResource : Resource :=
  { Properties := [("b", requiredProperty), ("a!", requiredProperty), ("a", requiredProperty)] }

/-! ## The primitive lookup -/

theorem convertTypeToJSON_unmapped (name : String)
    (h : name ∉ ["String", "Long", "Integer", "Double", "Boolean", "Timestamp", "Json", "Map"]) :
    convertTypeToJSON name = "" := by
  simp only [List.mem_cons, List.mem_singleton, List.not_mem_nil, or_false, not_or] at h
  obtain ⟨h1, h2, h3, h4, h5, h6, h7, h8⟩ := h
  have e1 : (name == "String") = false := beq_false_of_ne h1
  have e2 : (name == "Long") = false := beq_false_of_ne h2
  have e3 : (name == "Integer") = false := beq_false_of_ne h3
  have e4 : (name == "Double") = false := beq_false_of_ne h4
  have e5 : (name == "Boolean") = false := beq_false_of_ne h5
  have e6 : (name == "Timestamp") = false := beq_false_of_ne h6
  have e7 : (name == "Json") = false := beq_false_of_ne h7
  have e8 : (name == "Map") = false := beq_false_of_ne h8
  simp only [convertTypeToJSON, typeToJSON, List.lookup, e1, e2, e3, e4, e5, e6, e7, e8]

theorem getJSONPrimitiveType_of_primitive (p : Property) (h : p.PrimitiveType ≠ "") :
    p.GetJSONPrimitiveType = convertTypeToJSON p.PrimitiveType := by
  simp [Property.GetJSONPrimitiveType, Property.convertTypeToJSON, h]

/-- C1: for a Property whose PrimitiveType is one of the eight table names,
GetJSONPrimitiveType is the mapped value, whatever the other fields hold: String and
Timestamp give "string"; Long, Integer and Double give "number"; Boolean gives
"boolean"; Json and Map give "object". -/
theorem getJSONPrimitiveType_mapped (p : Property) :
    (p.PrimitiveType = "String" ∨ p.PrimitiveType = "Timestamp" →
      p.GetJSONPrimitiveType = "string") ∧
    (p.PrimitiveType = "Long" ∨ p.PrimitiveType = "Integer" ∨ p.PrimitiveType = "Double" →
      p.GetJSONPrimitiveType = "number") ∧
    (p.PrimitiveType = "Boolean" → p.GetJSONPrimitiveType = "boolean") ∧
    (p.PrimitiveType = "Json" ∨ p.PrimitiveType = "Map" → p.GetJSONPrimitiveType = "object") := by
  refine ⟨?_, ?_, ?_, ?_⟩
  · rintro (h | h) <;>
      rw [getJSONPrimitiveType_of_primitive p (by rw [h]; decide), h] <;> decide
  · rintro (h | h | h) <;>
      rw [getJSONPrimitiveType_of_primitive p (by rw [h]; decide), h] <;> decide
  · intro h
    rw [getJSONPrimitiveType_of_primitive p (by rw [h]; decide), h]; decide
  · rintro (h | h) <;>
      rw [getJSONPrimitiveType_of_primitive p (by rw [h]; decide), h] <;> decide

/-- Witness for C1 at four concrete properties, one per target type. -/
theorem getJSONPrimitiveType_mapped_witness :
    (primitiveProperty "Timestamp").GetJSONPrimitiveType = "string" ∧
    ({ stringListProperty with PrimitiveType := "Integer" } : Property).GetJSONPrimitiveType
      = "number" ∧
    (primitiveProperty "Boolean").GetJSONPrimitiveType = "boolean" ∧
    (primitiveProperty "Map").GetJSONPrimitiveType = "object" :=
  ⟨(getJSONPrimitiveType_mapped _).1 (Or.inr rfl),
   (getJSONPrimitiveType_mapped _).2.1 (Or.inr (Or.inl rfl)),
   (getJSONPrimitiveType_mapped _).2.2.1 rfl,
   (getJSONPrimitiveType_mapped _).2.2.2 (Or.inr rfl)⟩

/-- C2: a non-empty PrimitiveType outside the eight table names gives the empty
string and HasJSONPrimitiveType false, whatever PrimitiveItemType and ItemType hold;
and for every Property HasJSONPrimitiveType is true exactly when GetJSONPrimitiveType
is not the empty string. -/
theorem getJSONPrimitiveType_unmapped (p : Property) :
    (p.PrimitiveType ≠ "" →
      p.PrimitiveType ∉
        ["String", "Long", "Integer", "Double", "Boolean", "Timestamp", "Json", "Map"] →
      p.GetJSONPrimitiveType = "" ∧ p.HasJSONPrimitiveType = false) ∧
    (p.HasJSONPrimitiveType = true ↔ p.GetJSONPrimitiveType ≠ "") := by
  constructor
  · intro hne hnot
    have hget := getJSONPrimitiveType_of_primitive p hne
    rw [convertTypeToJSON_unmapped _ hnot] at hget
    refine ⟨hget, ?_⟩
    simp only [Property.GetJSONPrimitiveType] at hget
    simp [Property.HasJSONPrimitiveType, hget]
  · simp [Property.HasJSONPrimitiveType, Property.GetJSONPrimitiveType]

/-- Witness for C2: the unknown primitive name `Foo`, with a mapped item type present. -/
theorem getJSONPrimitiveType_unmapped_witness :
    ({ stringListProperty with PrimitiveType := "Foo", ItemType := "Json" } : Property).GetJSONPrimitiveType
        = "" ∧
      ({ stringListProperty with PrimitiveType := "Foo", ItemType := "Json" } : Property).HasJSONPrimitiveType
        = false :=
  (getJSONPrimitiveType_unmapped _).1 (by decide) (by decide)

/-! ## Shape classifiers -/

/-- C6 as stated fails: `taggedItemProperty` has no primitive type, no ItemType and
the tag `Foo`, yet IsCustomType is false because its PrimitiveItemType is set. -/
theorem isCustomType_claim_fails :
    ¬ (taggedItemProperty.IsCustomType = true ↔
        taggedItemProperty.PrimitiveType = "" ∧ taggedItemProperty.ItemType = "" ∧
          taggedItemProperty.Type_ ≠ "" ∧ taggedItemProperty.Type_ ≠ "List" ∧
          taggedItemProperty.Type_ ≠ "Map") := by
  decide

/-- C6 (amended): IsCustomType is true if and only if PrimitiveType, ItemType and
PrimitiveItemType are all empty and the Type tag is a non-empty string other than
"List" and "Map". -/
theorem isCustomType_iff (p : Property) :
    p.IsCustomType = true ↔
      p.PrimitiveType = "" ∧ p.ItemType = "" ∧ p.PrimitiveItemType = "" ∧
        p.Type_ ≠ "" ∧ p.Type_ ≠ "List" ∧ p.Type_ ≠ "Map" := by
  simp [Property.IsCustomType, and_assoc]

/-- C7: IsPolymorphic is true if and only if one of the six alternative-type lists is
non-empty, and replacing the scalar fields PrimitiveType, PrimitiveItemType, ItemType,
Type, Required and InclusiveItemPattern by any other values does not change it. -/
theorem isPolymorphic_iff (p : Property) (primitiveType primitiveItemType itemType tag : String)
    (required inclusiveItemPattern : Bool) :
    (p.IsPolymorphic = true ↔
      p.PrimitiveTypes ≠ [] ∨ p.PrimitiveItemTypes ≠ [] ∨ p.ItemTypes ≠ [] ∨ p.Types ≠ [] ∨
        p.InclusivePrimitiveItemTypes ≠ [] ∨ p.InclusiveItemTypes ≠ []) ∧
    ({ p with PrimitiveType := primitiveType, PrimitiveItemType := primitiveItemType,
              ItemType := itemType, Type_ := tag, Required := required,
              InclusiveItemPattern := inclusiveItemPattern } : Property).IsPolymorphic
      = p.IsPolymorphic := by
  refine ⟨?_, rfl⟩
  simp [Property.IsPolymorphic, List.length_pos, or_assoc]

/-- C8 as stated fails: `primitiveListProperty` is both IsPrimitive and IsList. -/
theorem primary_shape_claim_fails :
    ¬ ([primitiveListProperty.IsPrimitive, primitiveListProperty.IsList,
        primitiveListProperty.IsMap, primitiveListProperty.IsCustomType].count true ≤ 1) := by
  decide

/-- C8 (amended): at most one of IsList, IsMap and IsCustomType is true, and
IsCustomType is never true together with IsPrimitive. -/
theorem primary_shape_exclusive (p : Property) :
    [p.IsList, p.IsMap, p.IsCustomType].count true ≤ 1 ∧
      (p.IsPrimitive && p.IsCustomType) = false := by
  constructor
  · by_cases hl : p.Type_ = "List"
    · simp [Property.IsList, Property.IsMap, Property.IsCustomType, hl]
    · by_cases hm : p.Type_ = "Map"
      · simp [Property.IsList, Property.IsMap, Property.IsCustomType, hm]
      · have el : (p.Type_ == "List") = false := beq_false_of_ne hl
        have em : (p.Type_ == "Map") = false := beq_false_of_ne hm
        cases hc : p.IsCustomType <;> simp [Property.IsList, Property.IsMap, el, em]
  · by_cases hp : p.PrimitiveType = "" <;> simp [Property.IsPrimitive, Property.IsCustomType, hp]

/-- C9: with an empty PrimitiveType, GetJSONPrimitiveType is the table lookup of
PrimitiveItemType when that is non-empty (the empty string when it is unmapped,
ItemType being ignored), and the table lookup of ItemType when PrimitiveItemType is
empty too; a property with tag "List" and PrimitiveItemType "String" yields "string". -/
theorem getJSONPrimitiveType_fallback (p : Property) :
    (p.PrimitiveType = "" → p.PrimitiveItemType ≠ "" →
      p.GetJSONPrimitiveType = convertTypeToJSON p.PrimitiveItemType ∧
      (p.PrimitiveItemType ∉
          ["String", "Long", "Integer", "Double", "Boolean", "Timestamp", "Json", "Map"] →
        p.GetJSONPrimitiveType = "")) ∧
    (p.PrimitiveType = "" → p.PrimitiveItemType = "" →
      p.GetJSONPrimitiveType = convertTypeToJSON p.ItemType) ∧
    (p.Type_ = "List" → p.PrimitiveType = "" → p.PrimitiveItemType = "String" →
      p.GetJSONPrimitiveType = "string") := by
  refine ⟨?_, ?_, ?_⟩
  · intro h1 h2
    have hget : p.GetJSONPrimitiveType = convertTypeToJSON p.PrimitiveItemType := by
      simp [Property.GetJSONPrimitiveType, Property.convertTypeToJSON, h1, h2]
    exact ⟨hget, fun hnot => by rw [hget, convertTypeToJSON_unmapped _ hnot]⟩
  · intro h1 h2
    simp [Property.GetJSONPrimitiveType, Property.convertTypeToJSON, h1, h2]
  · intro _ h1 h2
    have hne : p.PrimitiveItemType ≠ "" := by rw [h2]; decide
    have hget : p.GetJSONPrimitiveType = convertTypeToJSON p.PrimitiveItemType := by
      simp [Property.GetJSONPrimitiveType, Property.convertTypeToJSON, h1, hne]
    rw [hget, h2]
    decide

/-- Witness for C9: an unmapped and a mapped PrimitiveItemType beside a mapped
ItemType, a bare ItemType, and the list of strings of the scenario. -/
theorem getJSONPrimitiveType_fallback_witness :
    (({ emptyProperty with PrimitiveItemType := "Foo", ItemType := "Json" } :
        Property).GetJSONPrimitiveType = convertTypeToJSON "Foo" ∧
      ({ emptyProperty with PrimitiveItemType := "Foo", ItemType := "Json" } :
        Property).GetJSONPrimitiveType = "") ∧
    ({ emptyProperty with ItemType := "Json" } : Property).GetJSONPrimitiveType
      = convertTypeToJSON "Json" ∧
    stringListProperty.GetJSONPrimitiveType = "string" :=
  ⟨⟨((getJSONPrimitiveType_fallback _).1 rfl (by decide)).1,
    ((getJSONPrimitiveType_fallback _).1 rfl (by decide)).2 (by decide)⟩,
   (getJSONPrimitiveType_fallback _).2.1 rfl rfl,
   (getJSONPrimitiveType_fallback _).2.2 rfl rfl rfl⟩

/-! ## `Required()`: order and sorting lemmas -/

theorem char_lt_iff (a b : Char) : a < b ↔ a.toNat < b.toNat := Iff.rfl

theorem char_eq_of_toNat (a b : Char) (h1 : ¬ a.toNat < b.toNat) (h2 : ¬ b.toNat < a.toNat) :
    a = b := by
  have h : a.toNat = b.toNat := by omega
  exact Char.ext (UInt32.ext h)

theorem lexLess_iff_lt : ∀ l₁ l₂ : List Char, lexLess l₁ l₂ = true ↔ l₁ < l₂
  | l, [] => by
    cases l <;> simp [lexLess, List.Lex.not_nil_right, LT.lt]
  | [], b :: bs => by
    simp [lexLess, List.nil_lt_cons]
  | a :: as, b :: bs => by
    by_cases h1 : a.toNat < b.toNat
    · simp only [lexLess, h1, if_true, true_iff]
      exact List.Lex.rel ((char_lt_iff a b).2 h1)
    · by_cases h2 : b.toNat < a.toNat
      · simp only [lexLess, h1, h2, if_false, if_true, Bool.false_eq_true, false_iff]
        intro h
        have hba : b :: bs < a :: as := List.Lex.rel ((char_lt_iff b a).2 h2)
        exact lt_asymm h hba
      · have hab := char_eq_of_toNat a b h1 h2
        subst hab
        simp only [lexLess, h1, if_false]
        rw [lexLess_iff_lt as bs]
        exact List.Lex.cons_iff.symm

theorem stringLess_iff_lt (a b : String) : stringLess a b = true ↔ a < b := by
  rw [stringLess, lexLess_iff_lt, String.lt_iff_toList_lt]

theorem insertString_eq (a : String) (l : List String) :
    insertString a l = l.orderedInsert (· ≤ ·) a := by
  induction l with
  | nil => rfl
  | cons b l ih =>
    by_cases h : b < a
    · have hle : ¬ a ≤ b := not_le.2 h
      simp [insertString, List.orderedInsert, (stringLess_iff_lt b a).2 h, hle, ih]
    · have hle : a ≤ b := not_lt.1 h
      have hf : stringLess b a = false := by
        rw [← Bool.not_eq_true, stringLess_iff_lt]; exact h
      simp [insertString, List.orderedInsert, hf, hle]

theorem sortStrings_eq (l : List String) : sortStrings l = l.insertionSort (· ≤ ·) := by
  induction l with
  | nil => rfl
  | cons a l ih => simp [sortStrings, List.insertionSort, ih, insertString_eq]

theorem requiredLoop_eq (es : List (String × Property)) :
    requiredLoop es = ((es.filter (fun e => e.2.Required)).map Prod.fst).map quoted := by
  induction es with
  | nil => rfl
  | cons e es ih =>
    obtain ⟨name, property⟩ := e
    cases h : property.Required <;> simp [requiredLoop, h, ih]

theorem requiredLoop_perm {es₁ es₂ : List (String × Property)} (h : es₁.Perm es₂) :
    (requiredLoop es₁).Perm (requiredLoop es₂) := by
  rw [requiredLoop_eq, requiredLoop_eq]
  exact ((h.filter _).map _).map _

theorem sortStrings_perm_eq {l₁ l₂ : List String} (h : l₁.Perm l₂) :
    sortStrings l₁ = sortStrings l₂ := by
  rw [sortStrings_eq, sortStrings_eq]
  exact List.eq_of_perm_of_sorted
    (((List.perm_insertionSort _ l₁).trans h).trans (List.perm_insertionSort _ l₂).symm)
    (List.sorted_insertionSort _ l₁) (List.sorted_insertionSort _ l₂)

theorem quoted_toList (name : String) :
    (quoted name).toList = '"' :: (name.toList ++ ['"']) := by
  simp [quoted, String.toList]

theorem quoted_injective : Function.Injective quoted := by
  intro a b h
  have h2 := congrArg String.toList h
  rw [quoted_toList, quoted_toList] at h2
  simp only [List.cons.injEq, true_and] at h2
  exact String.toList_inj.1 (List.append_cancel_right h2)

theorem required_names_nodup (es : List (String × Property))
    (hkeys : (es.map Prod.fst).Nodup) :
    ((es.filter (fun e => e.2.Required)).map Prod.fst).Nodup :=
  hkeys.sublist ((List.filter_sublist es).map Prod.fst)

theorem mem_required_names (es : List (String × Property)) (n : String) :
    n ∈ (es.filter (fun e => e.2.Required)).map Prod.fst ↔
      ∃ p, (n, p) ∈ es ∧ p.Required = true := by
  simp only [List.mem_map, List.mem_filter]
  constructor
  · rintro ⟨⟨k, p⟩, ⟨hmem, hreq⟩, rfl⟩
    exact ⟨p, hmem, hreq⟩
  · rintro ⟨p, hmem, hreq⟩
    exact ⟨(n, p), ⟨hmem, hreq⟩, rfl⟩

theorem lexLess_cons_self (c : Char) (x y : List Char) :
    lexLess (c :: x) (c :: y) = lexLess x y := by
  simp [lexLess]

theorem lexLess_quoted_of_lexLess : ∀ a b : List Char, lexLess a b = true →
    (∀ c rest, b = a ++ c :: rest → 34 ≤ c.toNat) →
    lexLess (a ++ ['"']) (b ++ ['"']) = true
  | _, [], h, _ => by cases ‹List Char› <;> simp [lexLess] at h
  | [], c :: rest, _, hext => by
    have hc := hext c rest rfl
    by_cases h34 : c.toNat = 34
    · have hq : c = '"' := Char.ext (UInt32.ext h34)
      subst hq
      cases rest <;> simp [lexLess]
    · have hlt : ('"' : Char).toNat < c.toNat := by
        have : ('"' : Char).toNat = 34 := rfl
        omega
      simp only [List.nil_append, List.cons_append, lexLess, hlt, if_true]
  | x :: as, y :: bs, h, hext => by
    by_cases h1 : x.toNat < y.toNat
    · simp [lexLess, h1]
    · by_cases h2 : y.toNat < x.toNat
      · simp [lexLess, h1, h2] at h
      · have hxy := char_eq_of_toNat x y h1 h2
        subst hxy
        simp only [lexLess, h1, if_false] at h
        simp only [List.cons_append, lexLess, h1, if_false]
        exact lexLess_quoted_of_lexLess as bs h (fun c rest hb => hext c rest (by rw [hb]; rfl))

theorem lexLess_quoted_of_low_extension : ∀ (a : List Char) (c : Char) (rest : List Char),
    c.toNat < 34 → lexLess (a ++ c :: rest ++ ['"']) (a ++ ['"']) = true
  | [], c, rest, hc => by
    have : ('"' : Char).toNat = 34 := rfl
    simp [lexLess, this, hc]
  | x :: as, c, rest, hc => by
    simp only [List.cons_append, lexLess, lt_irrefl, if_false]
    exact lexLess_quoted_of_low_extension as c rest hc

theorem quoted_mem_requiredLoop (es : List (String × Property)) (a : String) (pa : Property)
    (ha : (a, pa) ∈ es) (hra : pa.Required = true) : quoted a ∈ requiredLoop es := by
  rw [requiredLoop_eq]
  exact List.mem_map_of_mem quoted ((mem_required_names es a).2 ⟨pa, ha, hra⟩)

theorem pair_sublist_sortStrings (l : List String) (x y : String) (hx : x ∈ l) (hy : y ∈ l)
    (hlt : stringLess x y = true) : List.Sublist [x, y] (sortStrings l) := by
  have hxy : x < y := (stringLess_iff_lt x y).1 hlt
  rw [sortStrings_eq]
  refine List.pair_sublist_insertionSort' (le_of_lt hxy) (List.subperm_of_subset ?_ ?_)
  · simp [ne_of_lt hxy]
  · intro z hz
    simp only [List.mem_cons, List.mem_singleton, List.not_mem_nil, or_false] at hz
    rcases hz with rfl | rfl
    · exact hx
    · exact hy

theorem sortStrings_strict (l : List String) (hl : l.Nodup) :
    List.Pairwise (fun x y => stringLess x y = true) (sortStrings l) := by
  rw [sortStrings_eq]
  have hs : (l.insertionSort (· ≤ ·)).Sorted (· < ·) :=
    (List.sorted_insertionSort (· ≤ ·) l).lt_of_le
      ((List.perm_insertionSort (· ≤ ·) l).nodup_iff.2 hl)
  exact List.Pairwise.imp (fun h => (stringLess_iff_lt _ _).2 h) hs

/-! ## `Required()` -/

/-- C3: for a Resource (a map, so with pairwise distinct keys), Required() is the
join by ", " of the double-quoted entries of a duplicate-free list of names whose
members are exactly the names of the properties with the Required flag set; it is the
empty string when no property is required. -/
theorem required_lists_exactly (r : Resource) (hkeys : (r.Properties.map Prod.fst).Nodup) :
    (∃ names : List String, names.Nodup ∧
      (∀ n, n ∈ names ↔ ∃ p, (n, p) ∈ r.Properties ∧ p.Required = true) ∧
      r.Required = stringsJoin (names.map quoted) ", ") ∧
    ((∀ e ∈ r.Properties, e.2.Required = false) → r.Required = "") := by
  constructor
  · let byQuoted : String → String → Prop := fun a b => quoted a ≤ quoted b
    have hdec : DecidableRel byQuoted := fun a b => String.decidableLE (quoted a) (quoted b)
    let names := (r.Properties.filter (fun e => e.2.Required)).map Prod.fst
    refine ⟨names.insertionSort byQuoted, ?_, ?_, ?_⟩
    · exact (List.perm_insertionSort byQuoted names).nodup_iff.2
        (required_names_nodup r.Properties hkeys)
    · intro n
      rw [List.mem_insertionSort]
      exact mem_required_names r.Properties n
    · rw [List.map_insertionSort (fun a b => quoted a ≤ quoted b) (fun a b => a ≤ b) quoted names
        (fun _ _ _ _ => Iff.rfl)]
      simp only [Resource.Required, Resource.requiredSorted, requiredLoop_eq, sortStrings_eq]
  · intro hnone
    have hfilter : r.Properties.filter (fun e => e.2.Required) = [] := by
      rw [List.filter_eq_nil_iff]
      intro e he
      simp [hnone e he]
    simp [Resource.Required, Resource.requiredSorted, requiredLoop_eq, hfilter, sortStrings,
      stringsJoin]

/-- Witness for C3: the resource with `Name` required and `Count` optional, and a
resource without required properties. -/
theorem required_lists_exactly_witness :
    (∃ names : List String, names.Nodup ∧
      (∀ n, n ∈ names ↔ ∃ p, (n, p) ∈ scenarioResource.Properties ∧ p.Required = true) ∧
      scenarioResource.Required = stringsJoin (names.map quoted) ", ") ∧
    (Resource.mk [("Count", primitiveProperty "Integer")]).Required = "" :=
  ⟨(required_lists_exactly scenarioResource (by decide)).1,
   (required_lists_exactly (Resource.mk [("Count", primitiveProperty "Integer")]) (by decide)).2
     (by decide)⟩

/-- C4 as stated fails: in `prefixResource` the names `a` and `a!` are both required
and `a` is below `a!`, yet Required() is `"a!", "a"`, so `a` is not listed first. -/
theorem required_order_claim_fails :
    (prefixResource.Properties.map Prod.fst).Nodup ∧
    ("a", requiredProperty) ∈ prefixResource.Properties ∧
    ("a!", requiredProperty) ∈ prefixResource.Properties ∧
    stringLess "a" "a!" = true ∧
    prefixResource.Required = "\"a!\", \"a\"" ∧
    ¬ List.Sublist [quoted "a", quoted "a!"] prefixResource.requiredSorted := by
  decide

/-- C4 (amended): the entries of Required() are in strictly ascending order of the
quoted strings; for two required names a below b, a is listed before b unless b
continues a with a character below the double quote (code point 34), and in that
case b is listed before a. -/
theorem required_sorted_by_quoted (r : Resource) (hkeys : (r.Properties.map Prod.fst).Nodup) :
    List.Pairwise (fun x y => stringLess x y = true) r.requiredSorted ∧
    ∀ a b pa pb, (a, pa) ∈ r.Properties → pa.Required = true →
      (b, pb) ∈ r.Properties → pb.Required = true → stringLess a b = true →
      ((∀ c rest, b.toList = a.toList ++ c :: rest → 34 ≤ c.toNat) →
        List.Sublist [quoted a, quoted b] r.requiredSorted) ∧
      ((∃ c rest, b.toList = a.toList ++ c :: rest ∧ c.toNat < 34) →
        List.Sublist [quoted b, quoted a] r.requiredSorted) := by
  constructor
  · refine sortStrings_strict _ ?_
    rw [requiredLoop_eq]
    exact (required_names_nodup r.Properties hkeys).map quoted_injective
  · intro a b pa pb ha hra hb hrb hab
    have hqa := quoted_mem_requiredLoop r.Properties a pa ha hra
    have hqb := quoted_mem_requiredLoop r.Properties b pb hb hrb
    constructor
    · intro hext
      refine pair_sublist_sortStrings _ _ _ hqa hqb ?_
      rw [stringLess, quoted_toList, quoted_toList, lexLess_cons_self]
      exact lexLess_quoted_of_lexLess _ _ hab hext
    · rintro ⟨c, rest, hb', hc⟩
      refine pair_sublist_sortStrings _ _ _ hqb hqa ?_
      rw [stringLess, quoted_toList, quoted_toList, lexLess_cons_self, hb']
      exact lexLess_quoted_of_low_extension _ c rest hc

/-- Witness for C4: three required names `b`, `a!` and `a`. -/
theorem required_sorted_by_quoted_witness :
    List.Pairwise (fun x y => stringLess x y = true) threeRequiredResource.requiredSorted ∧
    List.Sublist [quoted "a", quoted "b"] threeRequiredResource.requiredSorted ∧
    List.Sublist [quoted "a!", quoted "a"] threeRequiredResource.requiredSorted :=
  ⟨(required_sorted_by_quoted threeRequiredResource (by decide)).1,
   ((required_sorted_by_quoted threeRequiredResource (by decide)).2 "a" "b" requiredProperty
      requiredProperty (by decide) rfl (by decide) rfl (by decide)).1
      (fun c rest h => by simp [String.toList] at h),
   ((required_sorted_by_quoted threeRequiredResource (by decide)).2 "a" "a!" requiredProperty
      requiredProperty (by decide) rfl (by decide) rfl (by decide)).2
      ⟨'!', [], rfl, by decide⟩⟩

/-- C5: two visiting orders of the same entries give the same Required() string. -/
theorem required_deterministic (r₁ r₂ : Resource)
    (hperm : r₁.Properties.Perm r₂.Properties) : r₁.Required = r₂.Required := by
  simp only [Resource.Required, Resource.requiredSorted]
  rw [sortStrings_perm_eq (requiredLoop_perm hperm)]

/-- Witness for C5: `prefixResource` visited in another order. -/
theorem required_deterministic_witness :
    prefixResource.Required =
      (Resource.mk [("a!", requiredProperty), ("a", requiredProperty),
        ("b", emptyProperty)]).Required :=
  required_deterministic _ _ (by decide)

/-! ## `counter` -/

theorem wrapInt_of_small (bits : Nat) (hbits : 1 ≤ bits) (x : Int) (h0 : 0 ≤ x)
    (hx : x < 2 ^ (bits - 1)) : wrapInt bits x = x := by
  obtain ⟨n, rfl⟩ : ∃ n, bits = n + 1 := ⟨bits - 1, by omega⟩
  simp only [Nat.add_sub_cancel] at hx
  have hpos : (0 : Int) < 2 ^ n := by positivity
  have hmod : (x + 2 ^ n) % 2 ^ (n + 1) = x + 2 ^ n :=
    Int.emod_eq_of_lt (by omega) (by rw [pow_succ]; omega)
  simp only [wrapInt, Nat.add_sub_cancel, hmod]
  omega

theorem counter_after (bits : Nat) (hbits : 1 ≤ bits) (length : Int) :
    ∀ k : Nat, (k : Int) < 2 ^ (bits - 1) →
      (counter length).after bits k = { length := length, i := k }
  | 0, _ => rfl
  | k + 1, hk => by
    have hk1 : ((k : Int) + 1) < 2 ^ (bits - 1) := by push_cast at hk; exact hk
    have ih := counter_after bits hbits length k (by omega)
    simp only [Counter.after, ih, Counter.call]
    rw [wrapInt_of_small bits hbits _ (by omega) hk1]
    push_cast
    rfl

/-- C10 as stated fails on a 64-bit `int`: the call number 2^63 of the closure of
`counter(1)` answers true, because `i++` wraps around to the most negative value. -/
theorem counter_claim_fails :
    ¬ ((counter 1).nthCall 64 (2 ^ 63) = true ↔ (((2 ^ 63 : Nat) : Int) < 1)) := by
  have hafter := counter_after 64 (by decide) 1 (2 ^ 63 - 1) (by norm_num)
  have hcall : (counter 1).nthCall 64 (2 ^ 63) = true := by
    simp only [Counter.nthCall, hafter, Counter.call, wrapInt]
    norm_num
  rw [hcall]
  norm_num

/-- C10 (amended): on an `int` of `bits` bits, the k-th call of the closure returned
by `counter(length)` answers true exactly when k < length, for every call number k
from 1 up to 2^(bits-1) - 1, the largest value of `i` before `i++` wraps around. -/
theorem counter_nthCall (bits : Nat) (hbits : 1 ≤ bits) (length : Int) (k : Nat) (hk : 1 ≤ k)
    (hlt : (k : Int) < 2 ^ (bits - 1)) :
    (counter length).nthCall bits k = decide ((k : Int) < length) := by
  obtain ⟨j, rfl⟩ : ∃ j, k = j + 1 := ⟨k - 1, by omega⟩
  have hj : ((j : Int) + 1) < 2 ^ (bits - 1) := by push_cast at hlt; exact hlt
  have hafter := counter_after bits hbits length j (by omega)
  simp only [Counter.nthCall, Nat.add_sub_cancel, hafter, Counter.call]
  rw [wrapInt_of_small bits hbits _ (by omega) hj]
  push_cast
  rfl

/-- Witness for C10: the closure of `counter(3)` on a 64-bit `int`, second call. -/
theorem counter_nthCall_witness :
    (counter 3).nthCall 64 2 = decide (((2 : Nat) : Int) < 3) :=
  counter_nthCall 64 (by decide) 3 2 (by decide) (by norm_num)

end SchemaGenerator
